import Mathlib

/-!
A shallow embedding of the overlore event decoder and event store
(`src/overlore/db/handler.py`), together with theorems settling the
specification claims about them.

Modelling conventions:
* Hex-word strings (`keys`, `data`) are modelled by their base-16 decoded
  natural-number values (`int(w, base=16)` is a bijection on canonical words).
* Python exceptions are modelled by `Except PyErr`; `IndexError` from an
  out-of-range list subscript, `KeyError` from a missing dict key,
  `RuntimeError` with its message string, `TypeError` from subscripting a
  non-pair, and `RealmNotFound` from the realm registry.
* The SQLite-backed store is modelled by `DbState`: an ordered list of rows
  (physical scan order = insertion order = rowid order for this
  insert-only table) plus the next AUTOINCREMENT id, which starts at 1 and
  is never reused.  `json.dumps` of the remaining dict is injective on the
  values that occur, so the `metadata` column stores the remaining dict
  itself.
* `ParsedEvent` is a Python dict: an insertion-ordered association list
  with unique keys; `del obj[k]` removes the sole binding of `k`.
* In-place mutation of the dict argument of `add` is modelled by returning
  the mutated dict alongside the new store state.
-/

set_option maxRecDepth 8000

namespace Overlore

/-- Python-level failure values raised by the handler code paths. -/
inductive PyErr where
  | indexError
  | keyError
  | typeError
  | runtimeError (msg : String)
  | realmNotFound
  deriving DecidableEq

instance {ε α : Type} [DecidableEq ε] [DecidableEq α] : DecidableEq (Except ε α) := fun a b =>
  match a, b with
  | .error e, .error f =>
    if h : e = f then .isTrue (by rw [h]) else .isFalse (fun hc => h (Except.error.inj hc))
  | .error _, .ok _ => .isFalse (fun hc => Except.noConfusion hc)
  | .ok _, .error _ => .isFalse (fun hc => Except.noConfusion hc)
  | .ok a, .ok b =>
    if h : a = b then .isTrue (by rw [h]) else .isFalse (fun hc => h (Except.ok.inj hc))

/-- One decoded resource pair, `{"type": ..., "amount": ...}`. -/
structure ResourceAmount where
  type : Nat
  amount : Nat
  deriving DecidableEq

/-- A Python value as it occurs in a `ParsedEvent` dict: an int, a realm
position pair, a list of entity ids, or a list of resource dicts. -/
inductive PyVal where
  | int (n : Nat)
  | pos (x y : Int)
  | ids (l : List Nat)
  | res (l : List ResourceAmount)
  deriving DecidableEq

/-- A `ParsedEvent` dict: insertion-ordered association list with unique keys. -/
abbrev ParsedEvent := List (String × PyVal)

/-- The id-to-position mapping held by the realm registry. -/
abbrev Registry := Nat → Option (Int × Int)

/-- Modelled from the spec: `Realms.position_by_id` (the
`overlore.eternum.constants` module is not under `src/`).  The registry is an
immutable mapping from entity id to a 2-D position, failing with
`RealmNotFound` when the id is absent. -/
def position_by_id (reg : Registry) (id : Nat) : Except PyErr (Int × Int) :=
  match reg id with
  | some p => .ok p
  | none => .error .realmNotFound

/-- Modelled from the spec: `EventKeyHash.COMBAT_OUTCOME.value`
(`overlore.graphql.constants` is not under `src/`).  One of the two known
key-hash discriminants; its concrete value is immaterial to the claims. -/
def COMBAT_OUTCOME_HASH : Nat := 0x1a2b3c

/-- Modelled from the spec: `EventKeyHash.ORDER_ACCEPTED.value`
(`overlore.graphql.constants` is not under `src/`); the second known
discriminant, distinct from `COMBAT_OUTCOME_HASH`. -/
def ORDER_ACCEPTED_HASH : Nat := 0x4d5e6f

/-- Modelled from the spec: `SqLiteEventType.COMBAT_OUTCOME.value`
(`overlore.sqlite.constants` is not under `src/`). -/
def COMBAT_OUTCOME_TYPE : Nat := 1

/-- Modelled from the spec: `SqLiteEventType.ORDER_ACCEPTED.value`
(`overlore.sqlite.constants` is not under `src/`). -/
def ORDER_ACCEPTED_TYPE : Nat := 2

/-- Python list subscript `data[i]`: raises `IndexError` out of range. -/
def pyIndex (l : List Nat) (i : Nat) : Except PyErr Nat :=
  match l.get? i with
  | some v => .ok v
  | none => .error .indexError

/-- Fuel-driven helper for `blen`; the fuel only bounds the recursion. -/
def blenAux : Nat → Nat → Nat
  | 0, _ => 0
  | fuel + 1, n => if n = 0 then 0 else blenAux fuel (n / 2) + 1

/-- Bit length of `n`: `0` for `0`, otherwise `floor(log2 n) + 1`. -/
def blen (n : Nat) : Nat := blenAux n n

/-- Round `num / den` to the nearest integer, ties to even (IEEE-754
round-to-nearest-even restricted to a scaled integer quotient). -/
def roundHalfEven (num den : Nat) : Nat :=
  if 2 * (num % den) < den then num / den
  else if den < 2 * (num % den) then num / den + 1
  else if num / den % 2 = 0 then num / den else num / den + 1

/-- Binade exponent used when rounding `x / 1000` to a 53-bit significand:
`rnExp x = floor(log2 (x / 1000)) + 64` for `x ≥ 1`. -/
def rnExp (x : Nat) : Nat := blen (x * 2 ^ 64 / 1000) - 1

/-- The 53-bit significand of the correctly rounded double `x / 1000`. -/
def rnMantissa (x : Nat) : Nat := roundHalfEven (x * 2 ^ 64) (1000 * 2 ^ (rnExp x - 52))

/-- CPython `int(x / 1000)` for a nonnegative int `x`: true division
produces the correctly rounded IEEE-754 double of `x / 1000`
(`long_true_divide` rounds the exact rational to nearest, ties to even, with
a 53-bit significand), and `int(...)` truncates it toward zero.  The double
is `rnMantissa x * 2 ^ (rnExp x - 116)` with a signed exponent, hence the
two truncation branches.  (Overflow to infinity needs `x > 2^1024 * 1000`,
far beyond any field element on the wire, and is not modelled.) -/
def pyIntDiv1000 (x : Nat) : Nat :=
  if x = 0 then 0
  else if 116 ≤ rnExp x then rnMantissa x * 2 ^ (rnExp x - 116)
  else rnMantissa x / 2 ^ (116 - rnExp x)

/-- The reads performed by `range(i, i + cnt)` word extraction: consume
`cnt` words starting at index `i`. -/
def readCount (data : List Nat) : Nat → Nat → Except PyErr (List Nat)
  | _, 0 => .ok []
  | i, cnt + 1 =>
    match pyIndex data i with
    | .error e => .error e
    | .ok w =>
      match readCount data (i + 1) cnt with
      | .error e => .error e
      | .ok ws => .ok (w :: ws)

/-- The reads performed by `range(i, i + 2*cnt, 2)` pair extraction in
`__parse_resources`: each step reads `data[i]` (type) and `data[i+1]`
(raw amount, scaled by `int(raw / 1000)`). -/
def readPairs (data : List Nat) : Nat → Nat → Except PyErr (List ResourceAmount)
  | _, 0 => .ok []
  | i, cnt + 1 =>
    match pyIndex data i with
    | .error e => .error e
    | .ok t =>
      match pyIndex data (i + 1) with
      | .error e => .error e
      | .ok a =>
        match readPairs data (i + 2) cnt with
        | .error e => .error e
        | .ok rest => .ok (⟨t, pyIntDiv1000 a⟩ :: rest)

/-- `DatabaseHandler.__parse_attacking_entity_ids`: reads the count word,
then the comprehension over `range(1, length)` (indices `1 .. length - 1`,
i.e. `length - 1` words), and returns `data[1 + length:]` as the remainder. -/
def parse_attacking_entity_ids (data : List Nat) :
    Except PyErr (List Nat × List Nat) :=
  match pyIndex data 0 with
  | .error e => .error e
  | .ok length =>
    match readCount data 1 (length - 1) with
    | .error e => .error e
    | .ok attacking_entity_ids => .ok (data.drop (1 + length), attacking_entity_ids)

/-- `DatabaseHandler.__parse_resources`: reads the count word, then the
comprehension over `range(1, resource_len * 2, 2)` (exactly `resource_len`
type/raw-amount pairs), and returns `data[resource_len * 2 + 1:]`. -/
def parse_resources (data : List Nat) :
    Except PyErr (List Nat × List ResourceAmount) :=
  match pyIndex data 0 with
  | .error e => .error e
  | .ok resource_len =>
    match readPairs data 1 resource_len with
    | .error e => .error e
    | .ok resources => .ok (data.drop (resource_len * 2 + 1), resources)

/-- `DatabaseHandler.__parse_combat_outcome_event`, with the dict literal's
values evaluated in source order (the registry lookups happen while the
dict literal is built, after the trailing word reads). -/
def parse_combat_outcome_event (reg : Registry) (keys data : List Nat) :
    Except PyErr ParsedEvent :=
  match pyIndex keys 1 with
  | .error e => .error e
  | .ok attacker_realm_id =>
  match pyIndex keys 2 with
  | .error e => .error e
  | .ok target_realm_entity_id =>
  match parse_attacking_entity_ids data with
  | .error e => .error e
  | .ok (data1, attacking_entity_ids) =>
  match parse_resources data1 with
  | .error e => .error e
  | .ok (data2, stolen_resources) =>
  match pyIndex data2 0 with
  | .error e => .error e
  | .ok winner =>
  match pyIndex data2 1 with
  | .error e => .error e
  | .ok damage =>
  match pyIndex data2 2 with
  | .error e => .error e
  | .ok ts =>
  match position_by_id reg attacker_realm_id with
  | .error e => .error e
  | .ok active =>
  match position_by_id reg target_realm_entity_id with
  | .error e => .error e
  | .ok passive =>
    .ok [("type", .int COMBAT_OUTCOME_TYPE),
         ("active_pos", .pos active.1 active.2),
         ("passive_pos", .pos passive.1 passive.2),
         ("attacking_entity_ids", .ids attacking_entity_ids),
         ("stolen_resources", .res stolen_resources),
         ("winner", .int winner),
         ("damage", .int damage),
         ("importance", .int 0),
         ("ts", .int ts)]

/-- `DatabaseHandler.__parse_trade_event`. -/
def parse_trade_event (reg : Registry) (keys data : List Nat) :
    Except PyErr ParsedEvent :=
  match pyIndex keys 1 with
  | .error e => .error e
  | .ok _trade_id =>
  match pyIndex data 0 with
  | .error e => .error e
  | .ok maker_id =>
  match pyIndex data 1 with
  | .error e => .error e
  | .ok taker_id =>
  match parse_resources (data.drop 2) with
  | .error e => .error e
  | .ok (data3, resources_maker) =>
  match parse_resources data3 with
  | .error e => .error e
  | .ok (data4, resources_taker) =>
  match pyIndex data4 0 with
  | .error e => .error e
  | .ok ts =>
  match position_by_id reg maker_id with
  | .error e => .error e
  | .ok active =>
  match position_by_id reg taker_id with
  | .error e => .error e
  | .ok passive =>
    .ok [("type", .int ORDER_ACCEPTED_TYPE),
         ("active_pos", .pos active.1 active.2),
         ("passive_pos", .pos passive.1 passive.2),
         ("resources_maker", .res resources_maker),
         ("resources_taker", .res resources_taker),
         ("importance", .int 0),
         ("ts", .int ts)]

/-- Python dict read `obj[k]` (as an `Option`; `none` will raise `KeyError`). -/
def pyDictGet (obj : ParsedEvent) (k : String) : Option PyVal :=
  (obj.find? (fun p => p.1 == k)).map (fun p => p.2)

/-- Python `del obj[k]`: removes the (unique) binding of `k`. -/
def pyDictDel (obj : ParsedEvent) (k : String) : ParsedEvent :=
  obj.filter (fun p => !(p.1 == k))

/-- One persisted row of the `events` table, in the shape `get_by_id`
returns: `(id, type, importance, ts, metadata, active_pos, passive_pos)`;
the two `MakePoint`/`X`/`Y` spatial round trips are exact on the modelled
coordinates. -/
structure StoredRow where
  id : Nat
  type : PyVal
  importance : Nat
  ts : PyVal
  metadata : ParsedEvent
  active_pos : Int × Int
  passive_pos : Int × Int
  deriving DecidableEq

/-- The store: committed rows in physical (insertion/rowid) order plus the
next AUTOINCREMENT id. -/
structure DbState where
  rows : List StoredRow
  nextId : Nat
  deriving DecidableEq

/-- A freshly initialized `events` table: no rows, AUTOINCREMENT at 1. -/
def DbState.empty : DbState := ⟨[], 1⟩

/-- `DatabaseHandler.__add` (including the `__insert` commit): pops the
first-class columns off the dict in source order (each `obj[k]` raising
`KeyError` if absent, then `del obj[k]`), serializes the remainder as the
metadata, and inserts one row with the fixed importance value `4` and
`MakePoint` on the two position pairs.  Returns the mutated dict, the new
store state, and `lastrowid`. -/
def add (obj : ParsedEvent) (st : DbState) :
    ParsedEvent × DbState × Except PyErr Nat :=
  match pyDictGet obj "type" with
  | none => (obj, st, .error .keyError)
  | some event_type =>
    let obj := pyDictDel obj "type"
    match pyDictGet obj "active_pos" with
    | none => (obj, st, .error .keyError)
    | some active_pos =>
      let obj := pyDictDel obj "active_pos"
      match pyDictGet obj "passive_pos" with
      | none => (obj, st, .error .keyError)
      | some passive_pos =>
        let obj := pyDictDel obj "passive_pos"
        match pyDictGet obj "ts" with
        | none => (obj, st, .error .keyError)
        | some ts =>
          let obj := pyDictDel obj "ts"
          match pyDictGet obj "importance" with
          | none => (obj, st, .error .keyError)
          | some _ =>
            let obj := pyDictDel obj "importance"
            match active_pos, passive_pos with
            | .pos ax ay, .pos px py =>
              let row : StoredRow :=
                ⟨st.nextId, event_type, 4, ts, obj, (ax, ay), (px, py)⟩
              (obj, ⟨st.rows ++ [row], st.nextId + 1⟩, .ok st.nextId)
            | _, _ => (obj, st, .error .typeError)

/-- `DatabaseHandler.get_by_id`: point lookup; `record[0]` on an empty
fetch raises `IndexError`. -/
def get_by_id (st : DbState) (event_id : Nat) : Except PyErr StoredRow :=
  match st.rows.find? (fun r => r.id == event_id) with
  | some r => .ok r
  | none => .error .indexError

/-- `DatabaseHandler.get_all`: full scan in physical (rowid) order. -/
def get_all (st : DbState) : List StoredRow := st.rows

/-- The `eventEmitted` payload; `none` on either field models a missing
key (`dict.get` returning `None`). -/
structure EventEmitted where
  keys : Option (List Nat)
  data : Option (List Nat)
  deriving DecidableEq

/-- An inbound envelope.  `eventEmitted = none` models both a missing
`eventEmitted` key and an empty (falsy) wrapper dict. -/
structure ToriiEvent where
  eventEmitted : Option EventEmitted
  deriving DecidableEq

/-- `DatabaseHandler.process_event`: envelope validation (falsy checks on
the wrapper, `keys`, `data`), discriminant dispatch on `keys[0]` (any
non-combat value takes the `else` branch into the trade parser), then
`__add`. -/
def process_event (reg : Registry) (event : ToriiEvent) (st : DbState) :
    DbState × Except PyErr Nat :=
  match event.eventEmitted with
  | none => (st, .error (.runtimeError "eventEmitted no present in event"))
  | some event_emitted =>
    match event_emitted.keys with
    | none => (st, .error (.runtimeError "Event had no keys"))
    | some [] => (st, .error (.runtimeError "Event had no keys"))
    | some (k0 :: krest) =>
      match event_emitted.data with
      | none => (st, .error (.runtimeError "Event had no data"))
      | some [] => (st, .error (.runtimeError "Event had no data"))
      | some (d0 :: drest) =>
        match (if k0 = COMBAT_OUTCOME_HASH
               then parse_combat_outcome_event reg (k0 :: krest) (d0 :: drest)
               else parse_trade_event reg (k0 :: krest) (d0 :: drest)) with
        | .error e => (st, .error e)
        | .ok parsed_event =>
          match add parsed_event st with
          | (_, st2, r) => (st2, r)

/-- One observable step of a store operation against the shared connection
and its mutex.  `acquire timedOut` records the Boolean result of
`Lock.acquire(blocking=True, timeout=1000)`; `DatabaseHandler.__lock`
discards that result. -/
inductive DbAction where
  | acquire (timedOut : Bool)
  | execute
  | commit
  | release
  deriving DecidableEq

/-- The action trace of `DatabaseHandler.__insert`: lock, execute, commit,
release — with no branch on the acquire result. -/
def insertTrace (timedOut : Bool) : List DbAction :=
  [.acquire timedOut, .execute, .commit, .release]

/-- The action trace of `DatabaseHandler.get_by_id`. -/
def getByIdTrace (timedOut : Bool) : List DbAction :=
  [.acquire timedOut, .execute, .release]

/-- The action trace of `DatabaseHandler.get_all`. -/
def getAllTrace (timedOut : Bool) : List DbAction :=
  [.acquire timedOut, .execute, .release]

/-- A small concrete realm registry used by concrete-input theorems. -/
def regW : Registry := fun n =>
  if n = 1 then some (3, 4) else if n = 2 then some (5, 6) else none

/-! ### Helper lemmas -/

theorem pyIndex_err {data : List Nat} {i : Nat} (h : data.length ≤ i) :
    pyIndex data i = .error .indexError := by
  unfold pyIndex
  rw [List.get?_eq_none.mpr h]

theorem pyIndex_ok_iff {data : List Nat} {i w : Nat} :
    pyIndex data i = .ok w ↔ data.get? i = some w := by
  unfold pyIndex
  cases h : data.get? i <;> simp

theorem blenAux_zero (f : Nat) : blenAux f 0 = 0 := by
  cases f <;> rfl

theorem blenAux_spec :
    ∀ fuel n, n ≤ fuel → 1 ≤ n →
      2 ^ (blenAux fuel n - 1) ≤ n ∧ n < 2 ^ (blenAux fuel n) := by
  intro fuel
  induction fuel with
  | zero => intro n h1 h2; omega
  | succ f ih =>
    intro n h1 h2
    rw [blenAux, if_neg (by omega : ¬ n = 0)]
    rcases Nat.lt_or_ge n 2 with hn | hn
    · have hn1 : n = 1 := by omega
      subst hn1
      norm_num [blenAux_zero]
    · have hh : n / 2 ≤ f := by omega
      have h12 : 1 ≤ n / 2 := by omega
      obtain ⟨hle, hlt⟩ := ih (n / 2) hh h12
      have hb1 : 1 ≤ blenAux f (n / 2) := by
        by_contra hc
        push_neg at hc
        have hb0 : blenAux f (n / 2) = 0 := by omega
        rw [hb0, pow_zero] at hlt
        omega
      obtain ⟨b', hb'⟩ : ∃ b', blenAux f (n / 2) = b' + 1 :=
        ⟨blenAux f (n / 2) - 1, by omega⟩
      rw [hb'] at hle hlt
      simp only [Nat.add_sub_cancel] at hle
      rw [hb']
      constructor
      · have h2d : 2 * (n / 2) ≤ n := by omega
        calc (2 : Nat) ^ (b' + 1 + 1 - 1) = 2 * 2 ^ b' := by
              simp only [Nat.add_sub_cancel]; rw [pow_succ]; ring
          _ ≤ 2 * (n / 2) := by omega
          _ ≤ n := h2d
      · calc n ≤ 2 * (n / 2) + 1 := by omega
          _ < 2 * 2 ^ (b' + 1) := by omega
          _ = 2 ^ (b' + 1 + 1) := by rw [pow_succ]; ring

theorem blen_spec (n : Nat) (h : 1 ≤ n) :
    2 ^ (blen n - 1) ≤ n ∧ n < 2 ^ (blen n) :=
  blenAux_spec n n le_rfl h

theorem roundHalfEven_bound (num den : Nat) (hden : 0 < den) :
    2 * num ≤ 2 * roundHalfEven num den * den + den ∧
    2 * roundHalfEven num den * den ≤ 2 * num + den := by
  have hmod : den * (num / den) + num % den = num := Nat.div_add_mod num den
  have hlt : num % den < den := Nat.mod_lt _ hden
  unfold roundHalfEven
  generalize hq : num / den = q at hmod ⊢
  generalize hr : num % den = r at hmod hlt ⊢
  rw [← hmod]
  split_ifs with h1 h2 h3 <;> constructor <;> (ring_nf; omega)

/-- The core truncation identity: for exponents in the range forced by
`x < 1000 * 2 ^ 44`, truncating the rounded 53-bit quotient agrees with
integer division by 1000. -/
theorem rhe_trunc_eq (x c : Nat) (hclb : 54 ≤ c) (hcub : c ≤ 107) :
    roundHalfEven (x * 2 ^ 64) (1000 * 2 ^ (c - 52)) / 2 ^ (116 - c) = x / 1000 := by
  set s := 116 - c with hs
  have hs9 : 9 ≤ s := by omega
  have hcs : c - 52 = 64 - s := by omega
  have hEpos : 0 < 2 ^ (64 - s) := pow_pos (by norm_num) _
  set m := roundHalfEven (x * 2 ^ 64) (1000 * 2 ^ (c - 52)) with hm
  have hb := roundHalfEven_bound (x * 2 ^ 64) (1000 * 2 ^ (c - 52)) (by positivity)
  rw [← hm, hcs] at hb
  obtain ⟨hb1, hb2⟩ := hb
  have hx64 : x * 2 ^ 64 = x * 2 ^ s * 2 ^ (64 - s) := by
    rw [mul_assoc, ← pow_add]
    congr 2
    omega
  have hlow : 2 * (x * 2 ^ s) ≤ 2 * m * 1000 + 1000 := by
    have h' : 2 * (x * 2 ^ s) * 2 ^ (64 - s) ≤ (2 * m * 1000 + 1000) * 2 ^ (64 - s) := by
      calc 2 * (x * 2 ^ s) * 2 ^ (64 - s) = 2 * (x * 2 ^ 64) := by rw [hx64]; ring
        _ ≤ 2 * m * (1000 * 2 ^ (64 - s)) + 1000 * 2 ^ (64 - s) := hb1
        _ = (2 * m * 1000 + 1000) * 2 ^ (64 - s) := by ring
    exact Nat.le_of_mul_le_mul_right h' hEpos
  have hupp : 2 * m * 1000 ≤ 2 * (x * 2 ^ s) + 1000 := by
    have h' : 2 * m * 1000 * 2 ^ (64 - s) ≤ (2 * (x * 2 ^ s) + 1000) * 2 ^ (64 - s) := by
      calc 2 * m * 1000 * 2 ^ (64 - s) = 2 * m * (1000 * 2 ^ (64 - s)) := by ring
        _ ≤ 2 * (x * 2 ^ 64) + 1000 * 2 ^ (64 - s) := hb2
        _ = (2 * (x * 2 ^ s) + 1000) * 2 ^ (64 - s) := by rw [hx64]; ring
    exact Nat.le_of_mul_le_mul_right h' hEpos
  have hxsplit : 1000 * (x / 1000) + x % 1000 = x := Nat.div_add_mod x 1000
  have hkb : x % 1000 < 1000 := Nat.mod_lt _ (by norm_num)
  have hP : (512 : Nat) ≤ 2 ^ s := by
    calc (512 : Nat) = 2 ^ 9 := by norm_num
      _ ≤ 2 ^ s := Nat.pow_le_pow_right (by norm_num) hs9
  have hxP : x * 2 ^ s = 1000 * (x / 1000 * 2 ^ s) + x % 1000 * 2 ^ s := by
    calc x * 2 ^ s = (1000 * (x / 1000) + x % 1000) * 2 ^ s := by rw [hxsplit]
      _ = 1000 * (x / 1000 * 2 ^ s) + x % 1000 * 2 ^ s := by ring
  have hU999 : x % 1000 * 2 ^ s ≤ 999 * 2 ^ s :=
    Nat.mul_le_mul_right _ (by omega)
  have hUor : x % 1000 * 2 ^ s = 0 ∨ 2 ^ s ≤ x % 1000 * 2 ^ s := by
    rcases Nat.eq_zero_or_pos (x % 1000) with hk0 | hk1
    · left; rw [hk0]; ring
    · right
      calc 2 ^ s = 1 * 2 ^ s := (one_mul _).symm
        _ ≤ x % 1000 * 2 ^ s := Nat.mul_le_mul_right _ hk1
  rw [hxP] at hlow hupp
  have hmain : x / 1000 * 2 ^ s ≤ m ∧ m < x / 1000 * 2 ^ s + 2 ^ s := by
    generalize hT : x / 1000 * 2 ^ s = T at hlow hupp ⊢
    generalize hU : x % 1000 * 2 ^ s = U at hlow hupp hU999 hUor
    generalize hPP : 2 ^ s = P at hlow hupp hU999 hUor hP ⊢
    omega
  obtain ⟨hml, hmu⟩ := hmain
  exact Nat.div_eq_of_lt_le hml (by rw [add_one_mul]; omega)

theorem readCount_err (data : List Nat) :
    ∀ cnt i, 1 ≤ cnt → data.length < i + cnt →
      readCount data i cnt = .error .indexError := by
  intro cnt
  induction cnt with
  | zero => intro i h1 h2; omega
  | succ c ih =>
    intro i _ h2
    rcases Nat.lt_or_ge i data.length with hi | hi
    · obtain ⟨w, hw⟩ : ∃ w, data.get? i = some w := by
        cases h : data.get? i
        · exact absurd (List.get?_eq_none.mp h) (by omega)
        · exact ⟨_, rfl⟩
      have hok : pyIndex data i = .ok w := pyIndex_ok_iff.mpr hw
      rcases Nat.eq_zero_or_pos c with rfl | hc
      · exact absurd hi (by omega)
      · simp only [readCount, hok]
        rw [ih (i + 1) hc (by omega)]
    · simp only [readCount, pyIndex_err hi]

theorem readPairs_err (data : List Nat) :
    ∀ cnt i, 1 ≤ cnt → data.length < i + 2 * cnt →
      readPairs data i cnt = .error .indexError := by
  intro cnt
  induction cnt with
  | zero => intro i h1 h2; omega
  | succ c ih =>
    intro i _ h2
    rcases Nat.lt_or_ge i data.length with hi | hi
    · obtain ⟨w, hw⟩ : ∃ w, data.get? i = some w := by
        cases h : data.get? i
        · exact absurd (List.get?_eq_none.mp h) (by omega)
        · exact ⟨_, rfl⟩
      have hok : pyIndex data i = .ok w := pyIndex_ok_iff.mpr hw
      rcases Nat.lt_or_ge (i + 1) data.length with hi1 | hi1
      · obtain ⟨a, ha⟩ : ∃ a, data.get? (i + 1) = some a := by
          cases h : data.get? (i + 1)
          · exact absurd (List.get?_eq_none.mp h) (by omega)
          · exact ⟨_, rfl⟩
        have hok1 : pyIndex data (i + 1) = .ok a := pyIndex_ok_iff.mpr ha
        rcases Nat.eq_zero_or_pos c with rfl | hc
        · exact absurd hi1 (by omega)
        · simp only [readPairs, hok, hok1]
          rw [ih (i + 2) hc (by omega)]
      · simp only [readPairs, hok, pyIndex_err hi1]
    · simp only [readPairs, pyIndex_err hi]

theorem readPairs_spec (data : List Nat) :
    ∀ cnt i res, readPairs data i cnt = .ok res →
      res.length = cnt ∧
      ∀ j, j < cnt → ∃ t a, data.get? (i + 2 * j) = some t ∧
        data.get? (i + 2 * j + 1) = some a ∧
        res.get? j = some ⟨t, pyIntDiv1000 a⟩ := by
  intro cnt
  induction cnt with
  | zero =>
    intro i res h
    simp only [readPairs] at h
    cases h
    exact ⟨rfl, fun j hj => absurd hj (by omega)⟩
  | succ c ih =>
    intro i res h
    simp only [readPairs] at h
    cases h1 : pyIndex data i with
    | error e => rw [h1] at h; cases h
    | ok t =>
      rw [h1] at h
      cases h2 : pyIndex data (i + 1) with
      | error e => rw [h2] at h; cases h
      | ok a =>
        rw [h2] at h
        cases h3 : readPairs data (i + 2) c with
        | error e => rw [h3] at h; cases h
        | ok rest =>
          rw [h3] at h
          cases h
          obtain ⟨hlen, hspec⟩ := ih (i + 2) rest h3
          refine ⟨by simp [hlen], ?_⟩
          intro j hj
          cases j with
          | zero =>
            refine ⟨t, a, ?_, ?_, rfl⟩
            · simpa using pyIndex_ok_iff.mp h1
            · simpa using pyIndex_ok_iff.mp h2
          | succ j' =>
            obtain ⟨t', a', hg1, hg2, hg3⟩ := hspec j' (by omega)
            refine ⟨t', a', ?_, ?_, ?_⟩
            · have he : i + 2 * (j' + 1) = i + 2 + 2 * j' := by ring
              rw [he]; exact hg1
            · have he : i + 2 * (j' + 1) + 1 = i + 2 + 2 * j' + 1 := by ring
              rw [he]; exact hg2
            · simpa using hg3

theorem pyIntDiv1000_eq_div (x : Nat) (hx : x < 1000 * 2 ^ 44) :
    pyIntDiv1000 x = x / 1000 := by
  rcases Nat.eq_zero_or_pos x with rfl | hx1
  · rfl
  have h1000 : (0 : Nat) < 1000 := by norm_num
  have hvpos : 1 ≤ x * 2 ^ 64 / 1000 := by
    refine (Nat.le_div_iff_mul_le h1000).mpr ?_
    calc 1 * 1000 ≤ 1 * 2 ^ 64 := by norm_num
      _ ≤ x * 2 ^ 64 := Nat.mul_le_mul_right _ hx1
  obtain ⟨hcle, hclt⟩ := blen_spec _ hvpos
  have hblen1 : 1 ≤ blen (x * 2 ^ 64 / 1000) := by
    by_contra hb
    push_neg at hb
    have hb0 : blen (x * 2 ^ 64 / 1000) = 0 := by omega
    rw [hb0, pow_zero] at hclt
    omega
  have hcc : blen (x * 2 ^ 64 / 1000) = rnExp x + 1 := by
    unfold rnExp
    omega
  rw [hcc] at hcle hclt
  simp only [Nat.add_sub_cancel] at hcle
  have hclb : 54 ≤ rnExp x := by
    have h54 : 2 ^ 54 ≤ x * 2 ^ 64 / 1000 := by
      refine (Nat.le_div_iff_mul_le h1000).mpr ?_
      calc 2 ^ 54 * 1000 ≤ 2 ^ 54 * 2 ^ 10 := by norm_num
        _ = 2 ^ 64 := by rw [← pow_add]
        _ = 1 * 2 ^ 64 := (one_mul _).symm
        _ ≤ x * 2 ^ 64 := Nat.mul_le_mul_right _ hx1
    have hlt2 := lt_of_le_of_lt h54 hclt
    have := (Nat.pow_lt_pow_iff_right (by norm_num : 1 < 2)).mp hlt2
    omega
  have hcub : rnExp x ≤ 107 := by
    have hvub : x * 2 ^ 64 / 1000 < 2 ^ 108 := by
      refine Nat.div_lt_of_lt_mul ?_
      calc x * 2 ^ 64 < 1000 * 2 ^ 44 * 2 ^ 64 :=
            (Nat.mul_lt_mul_right (pow_pos (by norm_num) 64)).mpr hx
        _ = 1000 * 2 ^ 108 := by rw [mul_assoc, ← pow_add]
    have hlt2 := lt_of_le_of_lt hcle hvub
    have := (Nat.pow_lt_pow_iff_right (by norm_num : 1 < 2)).mp hlt2
    omega
  unfold pyIntDiv1000
  rw [if_neg (by omega : ¬ x = 0), if_neg (by omega : ¬ 116 ≤ rnExp x)]
  unfold rnMantissa
  exact rhe_trunc_eq x (rnExp x) hclb hcub

theorem find?_append_singleton (rows : List StoredRow) (x : StoredRow) (eid : Nat)
    (h : ∀ r ∈ rows, r.id ≠ eid) :
    (rows ++ [x]).find? (fun r => r.id == eid) =
      if x.id == eid then some x else none := by
  induction rows with
  | nil =>
    simp only [List.nil_append, List.find?_cons, List.find?_nil]
    cases hx : (x.id == eid) <;> simp
  | cons r rs ih =>
    have hr : (r.id == eid) = false :=
      beq_eq_false_iff_ne.mpr (h r (List.mem_cons_self r rs))
    rw [List.cons_append, List.find?_cons_of_neg _ (by simp [hr])]
    exact ih (fun r' hr' => h r' (List.mem_cons_of_mem _ hr'))

theorem find?_filter_not (l : List (String × PyVal)) (k : String) :
    (l.filter (fun p => !(p.1 == k))).find? (fun p => p.1 == k) = none := by
  induction l with
  | nil => rfl
  | cons p ps ih =>
    by_cases hp : (p.1 == k) = true
    · rw [List.filter_cons, if_neg (by simp [hp])]
      exact ih
    · have hp' : (p.1 == k) = false := by simpa using hp
      rw [List.filter_cons, if_pos (by simp [hp'])]
      simp only [List.find?_cons, hp']
      exact ih

theorem find?_filter_none {α : Type} (p q : α → Bool) (l : List α)
    (h : l.find? p = none) : (l.filter q).find? p = none := by
  induction l with
  | nil => rfl
  | cons a as ih =>
    have hpa : p a = false := by
      cases hq : p a
      · rfl
      · rw [List.find?_cons_of_pos _ hq] at h; cases h
    simp only [List.find?_cons, hpa] at h
    by_cases hqa : q a = true
    · rw [List.filter_cons, if_pos hqa]
      simp only [List.find?_cons, hpa]
      exact ih h
    · rw [List.filter_cons, if_neg hqa]
      exact ih h

theorem pyDictGet_del_self (o : ParsedEvent) (k : String) :
    pyDictGet (pyDictDel o k) k = none := by
  unfold pyDictGet pyDictDel
  rw [find?_filter_not o k]
  rfl

theorem pyDictGet_del_none (o : ParsedEvent) (k k' : String)
    (h : pyDictGet o k = none) :
    pyDictGet (pyDictDel o k') k = none := by
  unfold pyDictGet at h ⊢
  unfold pyDictDel
  have hf : o.find? (fun p => p.1 == k) = none := by
    cases hq : o.find? (fun p => p.1 == k)
    · rfl
    · rw [hq] at h; simp at h
  rw [find?_filter_none _ _ _ hf]
  rfl

/-- Evaluation of `add` on a decoded CombatOutcome dict: the five
first-class keys are popped (in source order) and the remaining four
variant fields become the metadata of the inserted row, whose importance
is the fixed value 4. -/
theorem add_combat (ty : Nat) (ax ay px py : Int) (ids : List Nat)
    (srs : List ResourceAmount) (w dmg t : Nat) (st : DbState) :
    add [("type", .int ty), ("active_pos", .pos ax ay), ("passive_pos", .pos px py),
         ("attacking_entity_ids", .ids ids), ("stolen_resources", .res srs),
         ("winner", .int w), ("damage", .int dmg), ("importance", .int 0), ("ts", .int t)] st
      = ([("attacking_entity_ids", .ids ids), ("stolen_resources", .res srs),
          ("winner", .int w), ("damage", .int dmg)],
         ⟨st.rows ++ [⟨st.nextId, .int ty, 4, .int t,
            [("attacking_entity_ids", .ids ids), ("stolen_resources", .res srs),
             ("winner", .int w), ("damage", .int dmg)], (ax, ay), (px, py)⟩],
          st.nextId + 1⟩,
         .ok st.nextId) := rfl

/-- Evaluation of `add` on a decoded TradeAccepted dict. -/
theorem add_trade (ty : Nat) (ax ay px py : Int) (rm rt : List ResourceAmount)
    (t : Nat) (st : DbState) :
    add [("type", .int ty), ("active_pos", .pos ax ay), ("passive_pos", .pos px py),
         ("resources_maker", .res rm), ("resources_taker", .res rt),
         ("importance", .int 0), ("ts", .int t)] st
      = ([("resources_maker", .res rm), ("resources_taker", .res rt)],
         ⟨st.rows ++ [⟨st.nextId, .int ty, 4, .int t,
            [("resources_maker", .res rm), ("resources_taker", .res rt)],
            (ax, ay), (px, py)⟩],
          st.nextId + 1⟩,
         .ok st.nextId) := rfl

/-- What a successful `add` guarantees, for any dict. -/
theorem add_ok_spec {obj : ParsedEvent} {st : DbState} {obj2 : ParsedEvent}
    {st2 : DbState} {rid : Nat}
    (h : add obj st = (obj2, st2, .ok rid)) :
    rid = st.nextId ∧ st2.nextId = st.nextId + 1 ∧
    (∃ row : StoredRow, st2.rows = st.rows ++ [row] ∧ row.id = st.nextId ∧
      row.importance = 4) ∧
    obj2 = pyDictDel (pyDictDel (pyDictDel (pyDictDel (pyDictDel obj "type")
      "active_pos") "passive_pos") "ts") "importance" ∧
    pyDictGet obj "type" ≠ none := by
  simp only [add] at h
  cases h1 : pyDictGet obj "type" with
  | none => simp only [h1] at h; simp at h
  | some event_type =>
    simp only [h1] at h
    cases h2 : pyDictGet (pyDictDel obj "type") "active_pos" with
    | none => simp only [h2] at h; simp at h
    | some active_pos =>
      simp only [h2] at h
      cases h3 : pyDictGet (pyDictDel (pyDictDel obj "type") "active_pos") "passive_pos" with
      | none => simp only [h3] at h; simp at h
      | some passive_pos =>
        simp only [h3] at h
        cases h4 : pyDictGet (pyDictDel (pyDictDel (pyDictDel obj "type") "active_pos")
            "passive_pos") "ts" with
        | none => simp only [h4] at h; simp at h
        | some ts =>
          simp only [h4] at h
          cases h5 : pyDictGet (pyDictDel (pyDictDel (pyDictDel (pyDictDel obj "type")
              "active_pos") "passive_pos") "ts") "importance" with
          | none => simp only [h5] at h; simp at h
          | some imp =>
            simp only [h5] at h
            cases active_pos <;> cases passive_pos <;>
              simp only [Prod.mk.injEq, Except.ok.injEq, reduceCtorEq,
                false_and, and_false] at h
            obtain ⟨ho, hst, hr⟩ := h
            exact ⟨hr.symm, by rw [← hst], ⟨_, by rw [← hst], rfl, rfl⟩,
              ho.symm, by simp [h1]⟩

/-- Evaluation of the combat decoder from the results of its component
reads. -/
theorem parse_combat_eval {reg : Registry} {aId tId k0 : Nat} {krest : List Nat}
    {data data1 data2 : List Nat} {ids : List Nat} {srs : List ResourceAmount}
    {w dmg ts : Nat} {pA pT : Int × Int}
    (hreg1 : reg aId = some pA) (hreg2 : reg tId = some pT)
    (h1 : parse_attacking_entity_ids data = .ok (data1, ids))
    (h2 : parse_resources data1 = .ok (data2, srs))
    (hw : data2.get? 0 = some w) (hd : data2.get? 1 = some dmg)
    (ht : data2.get? 2 = some ts) :
    parse_combat_outcome_event reg (k0 :: aId :: tId :: krest) data =
      .ok [("type", .int COMBAT_OUTCOME_TYPE), ("active_pos", .pos pA.1 pA.2),
           ("passive_pos", .pos pT.1 pT.2), ("attacking_entity_ids", .ids ids),
           ("stolen_resources", .res srs), ("winner", .int w), ("damage", .int dmg),
           ("importance", .int 0), ("ts", .int ts)] := by
  have hk1 : pyIndex (k0 :: aId :: tId :: krest) 1 = .ok aId := rfl
  have hk2 : pyIndex (k0 :: aId :: tId :: krest) 2 = .ok tId := rfl
  have hw' : pyIndex data2 0 = .ok w := pyIndex_ok_iff.mpr hw
  have hd' : pyIndex data2 1 = .ok dmg := pyIndex_ok_iff.mpr hd
  have ht' : pyIndex data2 2 = .ok ts := pyIndex_ok_iff.mpr ht
  have hp1 : position_by_id reg aId = .ok pA := by simp [position_by_id, hreg1]
  have hp2 : position_by_id reg tId = .ok pT := by simp [position_by_id, hreg2]
  simp only [parse_combat_outcome_event, hk1, hk2, h1, h2, hw', hd', ht', hp1, hp2]

/-- A successful trade decode always produces the fixed dict shape of
`__parse_trade_event`. -/
theorem parse_trade_ok_shape {reg : Registry} {keys data : List Nat} {pe : ParsedEvent}
    (h : parse_trade_event reg keys data = .ok pe) :
    ∃ ax ay px py rm rt t, pe =
      [("type", .int ORDER_ACCEPTED_TYPE), ("active_pos", .pos ax ay),
       ("passive_pos", .pos px py), ("resources_maker", .res rm),
       ("resources_taker", .res rt), ("importance", .int 0), ("ts", .int t)] := by
  unfold parse_trade_event at h
  repeat' split at h
  all_goals first
    | exact ⟨_, _, _, _, _, _, _, (Except.ok.inj h).symm⟩
    | cases h

/-- A successful combat decode always produces the fixed dict shape of
`__parse_combat_outcome_event`. -/
theorem parse_combat_ok_shape {reg : Registry} {keys data : List Nat} {pe : ParsedEvent}
    (h : parse_combat_outcome_event reg keys data = .ok pe) :
    ∃ ax ay px py l rs w dmg t, pe =
      [("type", .int COMBAT_OUTCOME_TYPE), ("active_pos", .pos ax ay),
       ("passive_pos", .pos px py), ("attacking_entity_ids", .ids l),
       ("stolen_resources", .res rs), ("winner", .int w), ("damage", .int dmg),
       ("importance", .int 0), ("ts", .int t)] := by
  unfold parse_combat_outcome_event at h
  repeat' split at h
  all_goals first
    | exact ⟨_, _, _, _, _, _, _, _, _, (Except.ok.inj h).symm⟩
    | cases h

theorem readCount_ok (data : List Nat) :
    ∀ cnt i, i + cnt ≤ data.length → ∃ ws, readCount data i cnt = .ok ws := by
  intro cnt
  induction cnt with
  | zero => intro i _; exact ⟨[], rfl⟩
  | succ c ih =>
    intro i h
    obtain ⟨w, hw⟩ : ∃ w, data.get? i = some w := by
      cases hq : data.get? i
      · exact absurd (List.get?_eq_none.mp hq) (by omega)
      · exact ⟨_, rfl⟩
    obtain ⟨ws, hws⟩ := ih (i + 1) (by omega)
    exact ⟨w :: ws, by simp only [readCount, pyIndex_ok_iff.mpr hw, hws]⟩

/-- A failing `add` leaves the store untouched. -/
theorem add_err_state {obj : ParsedEvent} {st : DbState} {o2 : ParsedEvent}
    {s2 : DbState} {e : PyErr} (h : add obj st = (o2, s2, .error e)) : s2 = st := by
  simp only [add] at h
  cases h1 : pyDictGet obj "type" with
  | none =>
    simp only [h1, Prod.mk.injEq] at h
    exact h.2.1.symm
  | some event_type =>
    simp only [h1] at h
    cases h2 : pyDictGet (pyDictDel obj "type") "active_pos" with
    | none =>
      simp only [h2, Prod.mk.injEq] at h
      exact h.2.1.symm
    | some active_pos =>
      simp only [h2] at h
      cases h3 : pyDictGet (pyDictDel (pyDictDel obj "type") "active_pos") "passive_pos" with
      | none =>
        simp only [h3, Prod.mk.injEq] at h
        exact h.2.1.symm
      | some passive_pos =>
        simp only [h3] at h
        cases h4 : pyDictGet (pyDictDel (pyDictDel (pyDictDel obj "type") "active_pos")
            "passive_pos") "ts" with
        | none =>
          simp only [h4, Prod.mk.injEq] at h
          exact h.2.1.symm
        | some ts =>
          simp only [h4] at h
          cases h5 : pyDictGet (pyDictDel (pyDictDel (pyDictDel (pyDictDel obj "type")
              "active_pos") "passive_pos") "ts") "importance" with
          | none =>
            simp only [h5, Prod.mk.injEq] at h
            exact h.2.1.symm
          | some imp =>
            simp only [h5] at h
            cases active_pos <;> cases passive_pos <;>
              simp only [Prod.mk.injEq, Except.error.injEq, reduceCtorEq,
                false_and, and_false] at h <;>
              exact h.2.1.symm

/-- `process_event` on a well-shaped CombatOutcome envelope delegates to
the combat decoder and then `add`. -/
theorem process_event_combat {reg : Registry} {st : DbState}
    {aId tId : Nat} {krest : List Nat} {d0 : Nat} {drest : List Nat} {pe : ParsedEvent}
    (hpe : parse_combat_outcome_event reg (COMBAT_OUTCOME_HASH :: aId :: tId :: krest)
      (d0 :: drest) = .ok pe) :
    process_event reg ⟨some ⟨some (COMBAT_OUTCOME_HASH :: aId :: tId :: krest),
      some (d0 :: drest)⟩⟩ st = ((add pe st).2.1, (add pe st).2.2) := by
  simp only [process_event, eq_self_iff_true, if_true, hpe]

/-- `process_event` on a well-shaped envelope whose discriminant is not the
combat hash delegates to the trade decoder and then `add`. -/
theorem process_event_trade {reg : Registry} {st : DbState}
    {k0 : Nat} {krest : List Nat} {d0 : Nat} {drest : List Nat} {pe : ParsedEvent}
    (hk0 : k0 ≠ COMBAT_OUTCOME_HASH)
    (hpe : parse_trade_event reg (k0 :: krest) (d0 :: drest) = .ok pe) :
    process_event reg ⟨some ⟨some (k0 :: krest), some (d0 :: drest)⟩⟩ st
      = ((add pe st).2.1, (add pe st).2.2) := by
  simp only [process_event, if_neg hk0, hpe]

/-- What a successful `process_event` guarantees about ids and rows. -/
theorem process_event_ok_spec {reg : Registry} {ev : ToriiEvent} {st st2 : DbState}
    {rid : Nat} (h : process_event reg ev st = (st2, .ok rid)) :
    rid = st.nextId ∧ st2.nextId = st.nextId + 1 ∧
    ∃ row, st2.rows = st.rows ++ [row] ∧ row.id = st.nextId := by
  obtain ⟨ee⟩ := ev
  cases ee with
  | none => simp [process_event] at h
  | some eev =>
    obtain ⟨ks, ds⟩ := eev
    cases ks with
    | none => simp [process_event] at h
    | some kl =>
      cases kl with
      | nil => simp [process_event] at h
      | cons k0 krest =>
        cases ds with
        | none => simp [process_event] at h
        | some dl =>
          cases dl with
          | nil => simp [process_event] at h
          | cons d0 drest =>
            simp only [process_event] at h
            cases hp : (if k0 = COMBAT_OUTCOME_HASH
                then parse_combat_outcome_event reg (k0 :: krest) (d0 :: drest)
                else parse_trade_event reg (k0 :: krest) (d0 :: drest)) with
            | error e => simp only [hp] at h; simp at h
            | ok pe =>
              simp only [hp] at h
              rcases hadd : add pe st with ⟨o, s2, r⟩
              simp only [hadd, Prod.mk.injEq] at h
              obtain ⟨hs, hr⟩ := h
              subst hs
              subst hr
              obtain ⟨ha, hb, ⟨row, hrow, hid, _⟩, _, _⟩ := add_ok_spec hadd
              exact ⟨ha, hb, row, hrow, hid⟩

/-! ### Claim theorems -/

/-- C1: for every valid CombatOutcome envelope, `process_event` followed by
`get_by_id` on the returned id yields a StoredEvent whose `active_pos` and
`passive_pos` equal the RealmRegistry positions of `keys[1]` and `keys[2]`,
and whose metadata excludes the first-class columns (type, importance, ts,
active_pos, passive_pos) while reconstructing the decoded variant fields
(attacking_entity_ids, stolen_resources, winner, damage) derived from the
envelope's data stream. -/
theorem combat_round_trip
    (reg : Registry) (st : DbState) (aId tId : Nat) (krest : List Nat)
    (d0 : Nat) (drest : List Nat) (pA pT : Int × Int)
    (data1 data2 : List Nat) (ids : List Nat) (srs : List ResourceAmount)
    (w dmg ts : Nat)
    (hreg1 : reg aId = some pA) (hreg2 : reg tId = some pT)
    (h1 : parse_attacking_entity_ids (d0 :: drest) = .ok (data1, ids))
    (h2 : parse_resources data1 = .ok (data2, srs))
    (hw : data2.get? 0 = some w) (hd : data2.get? 1 = some dmg)
    (ht : data2.get? 2 = some ts)
    (hInv : ∀ r ∈ st.rows, r.id ≠ st.nextId) :
    (process_event reg ⟨some ⟨some (COMBAT_OUTCOME_HASH :: aId :: tId :: krest),
        some (d0 :: drest)⟩⟩ st).2 = .ok st.nextId ∧
    get_by_id (process_event reg ⟨some ⟨some (COMBAT_OUTCOME_HASH :: aId :: tId :: krest),
        some (d0 :: drest)⟩⟩ st).1 st.nextId
      = .ok ⟨st.nextId, .int COMBAT_OUTCOME_TYPE, 4, .int ts,
          [("attacking_entity_ids", .ids ids), ("stolen_resources", .res srs),
           ("winner", .int w), ("damage", .int dmg)], pA, pT⟩ ∧
    (∀ k ∈ (["type", "importance", "ts", "active_pos", "passive_pos"] : List String),
      pyDictGet [("attacking_entity_ids", PyVal.ids ids),
        ("stolen_resources", PyVal.res srs),
        ("winner", PyVal.int w), ("damage", PyVal.int dmg)] k = none) := by
  have hpe : parse_combat_outcome_event reg (COMBAT_OUTCOME_HASH :: aId :: tId :: krest)
      (d0 :: drest) = .ok [("type", .int COMBAT_OUTCOME_TYPE),
        ("active_pos", .pos pA.1 pA.2), ("passive_pos", .pos pT.1 pT.2),
        ("attacking_entity_ids", .ids ids), ("stolen_resources", .res srs),
        ("winner", .int w), ("damage", .int dmg), ("importance", .int 0),
        ("ts", .int ts)] :=
    parse_combat_eval hreg1 hreg2 h1 h2 hw hd ht
  rw [process_event_combat hpe, add_combat]
  refine ⟨rfl, ?_, ?_⟩
  · simp only [get_by_id, find?_append_singleton _ _ _ hInv]
    simp
  · intro k hk
    fin_cases hk <;> rfl

theorem combat_round_trip_witness :
    (process_event regW ⟨some ⟨some [COMBAT_OUTCOME_HASH, 1, 2],
        some [1, 9, 1, 3, 5000, 11, 12, 13]⟩⟩ DbState.empty).2 = .ok 1 ∧
    get_by_id (process_event regW ⟨some ⟨some [COMBAT_OUTCOME_HASH, 1, 2],
        some [1, 9, 1, 3, 5000, 11, 12, 13]⟩⟩ DbState.empty).1 1
      = .ok ⟨1, .int COMBAT_OUTCOME_TYPE, 4, .int 13,
          [("attacking_entity_ids", .ids []), ("stolen_resources", .res [⟨3, 5⟩]),
           ("winner", .int 11), ("damage", .int 12)], (3, 4), (5, 6)⟩ ∧
    (∀ k ∈ (["type", "importance", "ts", "active_pos", "passive_pos"] : List String),
      pyDictGet [("attacking_entity_ids", PyVal.ids []),
        ("stolen_resources", PyVal.res [⟨3, 5⟩]),
        ("winner", PyVal.int 11), ("damage", PyVal.int 12)] k = none) :=
  combat_round_trip regW DbState.empty 1 2 [] 1 [9, 1, 3, 5000, 11, 12, 13]
    (3, 4) (5, 6) [1, 3, 5000, 11, 12, 13] [11, 12, 13] [] [⟨3, 5⟩] 11 12 13
    rfl rfl rfl rfl rfl rfl rfl (by intro r hr; cases hr)

/-- C2: on a CombatOutcome data stream whose count word declares N = 2
followed by the two words 0xa, 0xb, the decoder advances the cursor past
both words (winner, damage and timestamp are read at the expected stream
offsets) but returns `attacking_entity_ids = [0xa]` — only the first
N - 1 = 1 words — rather than the N declared words `[0xa, 0xb]`:
`range(1, length)` drops `data[length]`. -/
theorem attacking_ids_off_by_one :
    parse_combat_outcome_event regW [COMBAT_OUTCOME_HASH, 1, 2] [2, 10, 11, 0, 5, 6, 7]
      = .ok [("type", .int COMBAT_OUTCOME_TYPE), ("active_pos", .pos 3 4),
             ("passive_pos", .pos 5 6), ("attacking_entity_ids", .ids [10]),
             ("stolen_resources", .res []), ("winner", .int 5), ("damage", .int 6),
             ("importance", .int 0), ("ts", .int 7)] ∧
    parse_attacking_entity_ids [2, 10, 11, 0, 5, 6, 7] = .ok ([0, 5, 6, 7], [10]) ∧
    ([10] : List Nat) ≠ [10, 11] :=
  ⟨rfl, rfl, by decide⟩

/-- C3 counterexample: an envelope whose discriminant `keys[0] = 0xdead`
matches neither known event type is not rejected: `process_event` decodes
it with the trade decoder, succeeds, and inserts a row. -/
theorem unknown_discriminant_inserts :
    (0xdead : Nat) ≠ COMBAT_OUTCOME_HASH ∧ (0xdead : Nat) ≠ ORDER_ACCEPTED_HASH ∧
    (process_event regW ⟨some ⟨some [0xdead, 5], some [1, 2, 0, 0, 77]⟩⟩
      DbState.empty).2 = .ok 1 ∧
    ((process_event regW ⟨some ⟨some [0xdead, 5], some [1, 2, 0, 0, 77]⟩⟩
      DbState.empty).1).rows.length = 1 :=
  ⟨by decide, by decide, rfl, rfl⟩

/-- C3 amended: `process_event` performs no discriminant validation — an
envelope whose `keys[0]` is not the CombatOutcome hash (in particular any
unknown discriminant) is decoded with the TradeAccepted decoder, and when
that decode succeeds the event is inserted as a row and its id returned;
no `UnknownDiscriminant` failure exists in the code. -/
theorem unknown_discriminant_falls_through
    (reg : Registry) (st : DbState) (k0 : Nat) (krest : List Nat)
    (d0 : Nat) (drest : List Nat) (pe : ParsedEvent)
    (hk0 : k0 ≠ COMBAT_OUTCOME_HASH)
    (hpe : parse_trade_event reg (k0 :: krest) (d0 :: drest) = .ok pe) :
    (process_event reg ⟨some ⟨some (k0 :: krest), some (d0 :: drest)⟩⟩ st).2
      = .ok st.nextId ∧
    ((process_event reg ⟨some ⟨some (k0 :: krest), some (d0 :: drest)⟩⟩ st).1).rows.length
      = st.rows.length + 1 := by
  obtain ⟨ax, ay, px, py, rm, rt, t, rfl⟩ := parse_trade_ok_shape hpe
  rw [process_event_trade hk0 hpe, add_trade]
  exact ⟨rfl, by simp⟩

theorem unknown_discriminant_falls_through_witness :
    (process_event regW ⟨some ⟨some [0xdead, 5], some [1, 2, 0, 0, 77]⟩⟩
      DbState.empty).2 = .ok 1 ∧
    ((process_event regW ⟨some ⟨some [0xdead, 5], some [1, 2, 0, 0, 77]⟩⟩
      DbState.empty).1).rows.length = 0 + 1 :=
  unknown_discriminant_falls_through regW DbState.empty 0xdead [5] 1 [2, 0, 0, 77]
    [("type", .int ORDER_ACCEPTED_TYPE), ("active_pos", .pos 3 4),
     ("passive_pos", .pos 5 6), ("resources_maker", .res []),
     ("resources_taker", .res []), ("importance", .int 0), ("ts", .int 77)]
    (by decide) rfl

/-- C4 counterexample: a data stream whose attacking-entity-id count word
declares 2 while only one word remains does not fail at all — the decoder
returns successfully (with one id and an empty remainder), because
`range(1, length)` reads one word fewer than the count declares. -/
theorem length_prefix_shortfall_succeeds :
    parse_attacking_entity_ids [2, 10] = .ok ([], [10]) ∧
    ([2, 10] : List Nat).length < 1 + 2 :=
  ⟨rfl, by decide⟩

/-- C4 amended: a resource array whose declared count is not satisfied by
the remaining words fails with the builtin `IndexError` (there is no typed
`DecodeError` in the code), and an attacking-id array missing more than
one word likewise fails with `IndexError`; but an attacking-id array whose
declared count exceeds the remaining words by exactly one succeeds.  A
failing decode leaves the store unchanged. -/
theorem length_prefix_shortfall_behavior :
    (∀ data len0, data.get? 0 = some len0 → 1 ≤ len0 →
      data.length < 1 + 2 * len0 → parse_resources data = .error .indexError) ∧
    (∀ data len0, data.get? 0 = some len0 → data.length < len0 →
      parse_attacking_entity_ids data = .error .indexError) ∧
    (∀ data len0, data.get? 0 = some len0 → data.length = len0 →
      ∃ ids, parse_attacking_entity_ids data = .ok ([], ids)) ∧
    (∀ (reg : Registry) (ev : ToriiEvent) (st : DbState) (e : PyErr),
      (process_event reg ev st).2 = .error e → (process_event reg ev st).1 = st) := by
  have hlen1 : ∀ (data : List Nat) (len0 : Nat), data.get? 0 = some len0 →
      1 ≤ data.length := by
    intro data len0 h0
    by_contra hc
    push_neg at hc
    rw [List.get?_eq_none.mpr (by omega)] at h0
    cases h0
  refine ⟨?_, ?_, ?_, ?_⟩
  · intro data len0 h0 h1 hlen
    simp only [parse_resources, pyIndex_ok_iff.mpr h0,
      readPairs_err data len0 1 h1 (by omega)]
  · intro data len0 h0 hlen
    have := hlen1 data len0 h0
    simp only [parse_attacking_entity_ids, pyIndex_ok_iff.mpr h0,
      readCount_err data (len0 - 1) 1 (by omega) (by omega)]
  · intro data len0 h0 hlen
    have := hlen1 data len0 h0
    obtain ⟨ws, hws⟩ := readCount_ok data (len0 - 1) 1 (by omega)
    refine ⟨ws, ?_⟩
    simp only [parse_attacking_entity_ids, pyIndex_ok_iff.mpr h0, hws]
    rw [List.drop_eq_nil_of_le (by omega : data.length ≤ 1 + len0)]
  · intro reg ev st e h
    obtain ⟨ee⟩ := ev
    cases ee with
    | none => rfl
    | some eev =>
      obtain ⟨ks, ds⟩ := eev
      cases ks with
      | none => rfl
      | some kl =>
        cases kl with
        | nil => rfl
        | cons k0 krest =>
          cases ds with
          | none => rfl
          | some dl =>
            cases dl with
            | nil => rfl
            | cons d0 drest =>
              simp only [process_event] at h ⊢
              cases hp : (if k0 = COMBAT_OUTCOME_HASH
                  then parse_combat_outcome_event reg (k0 :: krest) (d0 :: drest)
                  else parse_trade_event reg (k0 :: krest) (d0 :: drest)) with
              | error e2 => simp only [hp]
              | ok pe =>
                simp only [hp] at h ⊢
                rcases hadd : add pe st with ⟨o, s2, r⟩
                simp only [hadd] at h ⊢
                cases r with
                | error e2 => exact add_err_state hadd
                | ok rid => cases h

theorem length_prefix_shortfall_behavior_witness :
    parse_resources [2, 5, 6] = .error .indexError ∧
    parse_attacking_entity_ids [3, 9] = .error .indexError ∧
    (∃ ids, parse_attacking_entity_ids [2, 9] = .ok ([], ids)) :=
  ⟨length_prefix_shortfall_behavior.1 [2, 5, 6] 2 rfl (by decide) (by decide),
   length_prefix_shortfall_behavior.2.1 [3, 9] 3 rfl (by decide),
   length_prefix_shortfall_behavior.2.2.1 [2, 9] 2 rfl (by decide)⟩

/-- C5 counterexample: the decoded amount is the truncation of the
IEEE-754 double quotient `raw / 1000` (Python `int(raw/1000)`), which is
not integer division for every raw word: the raw amount
17592186044416999 decodes to amount 17592186044417, while integer
division by 1000 gives 17592186044416. -/
theorem resource_scaling_float_counterexample :
    parse_resources [1, 1, 17592186044416999] = .ok ([], [⟨1, 17592186044417⟩]) ∧
    (17592186044416999 : Nat) / 1000 = 17592186044416 ∧
    (17592186044417 : Nat) ≠ 17592186044416999 / 1000 :=
  ⟨rfl, by norm_num, by norm_num⟩

/-- C5 amended: every resource pair in a decoded resource array carries
`amount = int(raw / 1000)` computed through float division, and whenever
the on-wire raw quantity is below 1000 * 2^44 (≈ 1.76e16; in particular
for every realistic resource quantity, such as 5000 ↦ 5) this equals the
raw quantity divided by 1000 with integer division.  Above that bound the
float rounding can differ from integer division. -/
theorem resource_scaling_div (data rest : List Nat) (res : List ResourceAmount)
    (h : parse_resources data = .ok (rest, res)) :
    ∀ j, j < res.length → ∃ t a, data.get? (2 * j + 1) = some t ∧
      data.get? (2 * j + 2) = some a ∧
      res.get? j = some ⟨t, pyIntDiv1000 a⟩ ∧
      (a < 1000 * 2 ^ 44 → res.get? j = some ⟨t, a / 1000⟩) := by
  intro j hj
  simp only [parse_resources] at h
  cases h0 : pyIndex data 0 with
  | error e => simp only [h0] at h; cases h
  | ok len0 =>
    simp only [h0] at h
    cases h1 : readPairs data 1 len0 with
    | error e => simp only [h1] at h; cases h
    | ok res0 =>
      simp only [h1, Except.ok.injEq, Prod.mk.injEq] at h
      obtain ⟨hrest, hres⟩ := h
      subst hres
      obtain ⟨hlen, hspec⟩ := readPairs_spec data len0 1 res0 h1
      obtain ⟨t, a, hg1, hg2, hg3⟩ := hspec j (by omega)
      have he1 : 1 + 2 * j = 2 * j + 1 := by ring
      have he2 : 1 + 2 * j + 1 = 2 * j + 2 := by ring
      rw [he1] at hg1
      rw [he2] at hg2
      refine ⟨t, a, hg1, hg2, hg3, ?_⟩
      intro ha
      rw [hg3, pyIntDiv1000_eq_div a ha]

theorem resource_scaling_div_witness :
    ∃ t a, ([1, 7, 5000] : List Nat).get? 1 = some t ∧
      ([1, 7, 5000] : List Nat).get? 2 = some a ∧
      ([⟨7, 5⟩] : List ResourceAmount).get? 0 = some ⟨t, pyIntDiv1000 a⟩ ∧
      (a < 1000 * 2 ^ 44 → ([⟨7, 5⟩] : List ResourceAmount).get? 0 = some ⟨t, a / 1000⟩) :=
  resource_scaling_div [1, 7, 5000] [] [⟨7, 5⟩] rfl 0 (by decide)

/-- C6: both decoders set the decoded `importance` to 0, while the insert
path of the store unconditionally writes the fixed importance value 4 into
the persisted row, whatever importance the dict carried. -/
theorem importance_decoded_zero_stored_four :
    (∀ (reg : Registry) (keys data : List Nat) (pe : ParsedEvent),
      parse_combat_outcome_event reg keys data = .ok pe →
      pyDictGet pe "importance" = some (.int 0)) ∧
    (∀ (reg : Registry) (keys data : List Nat) (pe : ParsedEvent),
      parse_trade_event reg keys data = .ok pe →
      pyDictGet pe "importance" = some (.int 0)) ∧
    (∀ (obj : ParsedEvent) (st : DbState) (obj2 : ParsedEvent) (st2 : DbState)
        (rid : Nat), add obj st = (obj2, st2, .ok rid) →
      ∃ row : StoredRow, st2.rows = st.rows ++ [row] ∧ row.importance = 4) := by
  refine ⟨?_, ?_, ?_⟩
  · intro reg keys data pe h
    obtain ⟨ax, ay, px, py, l, rs, w, dmg, t, rfl⟩ := parse_combat_ok_shape h
    rfl
  · intro reg keys data pe h
    obtain ⟨ax, ay, px, py, rm, rt, t, rfl⟩ := parse_trade_ok_shape h
    rfl
  · intro obj st obj2 st2 rid h
    obtain ⟨_, _, ⟨row, hr1, _, hr2⟩, _, _⟩ := add_ok_spec h
    exact ⟨row, hr1, hr2⟩

theorem importance_decoded_zero_stored_four_witness :
    pyDictGet [("type", PyVal.int COMBAT_OUTCOME_TYPE), ("active_pos", PyVal.pos 3 4),
      ("passive_pos", PyVal.pos 5 6), ("attacking_entity_ids", PyVal.ids []),
      ("stolen_resources", PyVal.res []), ("winner", PyVal.int 11),
      ("damage", PyVal.int 12), ("importance", PyVal.int 0),
      ("ts", PyVal.int 13)] "importance" = some (.int 0) ∧
    (∃ row : StoredRow,
      (⟨[⟨1, .int COMBAT_OUTCOME_TYPE, 4, .int 13,
          [("attacking_entity_ids", PyVal.ids []), ("stolen_resources", PyVal.res []),
           ("winner", PyVal.int 11), ("damage", PyVal.int 12)], (3, 4), (5, 6)⟩],
        2⟩ : DbState).rows = DbState.empty.rows ++ [row] ∧ row.importance = 4) :=
  ⟨importance_decoded_zero_stored_four.1 regW [COMBAT_OUTCOME_HASH, 1, 2]
      [1, 9, 0, 11, 12, 13]
      [("type", .int COMBAT_OUTCOME_TYPE), ("active_pos", .pos 3 4),
       ("passive_pos", .pos 5 6), ("attacking_entity_ids", .ids []),
       ("stolen_resources", .res []), ("winner", .int 11), ("damage", .int 12),
       ("importance", .int 0), ("ts", .int 13)] rfl,
   importance_decoded_zero_stored_four.2.2
      [("type", .int COMBAT_OUTCOME_TYPE), ("active_pos", .pos 3 4),
       ("passive_pos", .pos 5 6), ("attacking_entity_ids", .ids []),
       ("stolen_resources", .res []), ("winner", .int 11), ("damage", .int 12),
       ("importance", .int 0), ("ts", .int 13)]
      DbState.empty
      [("attacking_entity_ids", .ids []), ("stolen_resources", .res []),
       ("winner", .int 11), ("damage", .int 12)]
      ⟨[⟨1, .int COMBAT_OUTCOME_TYPE, 4, .int 13,
          [("attacking_entity_ids", PyVal.ids []), ("stolen_resources", PyVal.res []),
           ("winner", PyVal.int 11), ("damage", PyVal.int 12)], (3, 4), (5, 6)⟩],
        2⟩
      1 rfl⟩

/-- C7: ids are issued by the store strictly increasing starting at 1 and
never reused — three successful inserts from a fresh store receive ids
1, 2, 3, `get_all` returns the stored events in ascending id order, and in
general every successful insert returns the current next id and bumps it
by one. -/
theorem monotonic_ids
    (reg : Registry) (e1 e2 e3 : ToriiEvent) (st1 st2 st3 : DbState)
    (i1 i2 i3 : Nat)
    (h1 : process_event reg e1 DbState.empty = (st1, .ok i1))
    (h2 : process_event reg e2 st1 = (st2, .ok i2))
    (h3 : process_event reg e3 st2 = (st3, .ok i3)) :
    i1 = 1 ∧ i2 = 2 ∧ i3 = 3 ∧
    (get_all st3).map StoredRow.id = [1, 2, 3] ∧
    List.Sorted (· < ·) ((get_all st3).map StoredRow.id) ∧
    (∀ (obj : ParsedEvent) (st : DbState) (obj2 : ParsedEvent) (st2x : DbState)
        (rid : Nat), add obj st = (obj2, st2x, .ok rid) →
      rid = st.nextId ∧ st2x.nextId = st.nextId + 1) := by
  obtain ⟨hi1, hn1, r1, hr1, hid1⟩ := process_event_ok_spec h1
  obtain ⟨hi2, hn2, r2, hr2, hid2⟩ := process_event_ok_spec h2
  obtain ⟨hi3, hn3, r3, hr3, hid3⟩ := process_event_ok_spec h3
  have hn0 : DbState.empty.nextId = 1 := rfl
  have hr0 : DbState.empty.rows = [] := rfl
  have ha : i1 = 1 := by omega
  have hb : i2 = 2 := by omega
  have hc : i3 = 3 := by omega
  have hd1 : r1.id = 1 := by omega
  have hd2 : r2.id = 2 := by omega
  have hd3 : r3.id = 3 := by omega
  have hrows : st3.rows = [r1, r2, r3] := by
    rw [hr3, hr2, hr1, hr0]
    rfl
  have hmap : (get_all st3).map StoredRow.id = [1, 2, 3] := by
    simp only [get_all]
    rw [hrows]
    simp [hd1, hd2, hd3]
  refine ⟨ha, hb, hc, hmap, ?_, ?_⟩
  · rw [hmap]
    decide
  · intro obj st obj2 st2x rid h
    obtain ⟨x1, x2, _, _, _⟩ := add_ok_spec h
    exact ⟨x1, x2⟩

theorem monotonic_ids_witness :
    (1 : Nat) = 1 ∧ (2 : Nat) = 2 ∧ (3 : Nat) = 3 ∧
    (get_all ⟨[⟨1, .int COMBAT_OUTCOME_TYPE, 4, .int 13,
        [("attacking_entity_ids", PyVal.ids []), ("stolen_resources", PyVal.res []),
         ("winner", PyVal.int 11), ("damage", PyVal.int 12)], (3, 4), (5, 6)⟩,
      ⟨2, .int COMBAT_OUTCOME_TYPE, 4, .int 13,
        [("attacking_entity_ids", PyVal.ids []), ("stolen_resources", PyVal.res []),
         ("winner", PyVal.int 11), ("damage", PyVal.int 12)], (3, 4), (5, 6)⟩,
      ⟨3, .int COMBAT_OUTCOME_TYPE, 4, .int 13,
        [("attacking_entity_ids", PyVal.ids []), ("stolen_resources", PyVal.res []),
         ("winner", PyVal.int 11), ("damage", PyVal.int 12)], (3, 4), (5, 6)⟩],
      4⟩).map StoredRow.id = [1, 2, 3] ∧
    List.Sorted (· < ·) ((get_all ⟨[⟨1, .int COMBAT_OUTCOME_TYPE, 4, .int 13,
        [("attacking_entity_ids", PyVal.ids []), ("stolen_resources", PyVal.res []),
         ("winner", PyVal.int 11), ("damage", PyVal.int 12)], (3, 4), (5, 6)⟩,
      ⟨2, .int COMBAT_OUTCOME_TYPE, 4, .int 13,
        [("attacking_entity_ids", PyVal.ids []), ("stolen_resources", PyVal.res []),
         ("winner", PyVal.int 11), ("damage", PyVal.int 12)], (3, 4), (5, 6)⟩,
      ⟨3, .int COMBAT_OUTCOME_TYPE, 4, .int 13,
        [("attacking_entity_ids", PyVal.ids []), ("stolen_resources", PyVal.res []),
         ("winner", PyVal.int 11), ("damage", PyVal.int 12)], (3, 4), (5, 6)⟩],
      4⟩).map StoredRow.id) ∧
    (∀ (obj : ParsedEvent) (st : DbState) (obj2 : ParsedEvent) (st2x : DbState)
        (rid : Nat), add obj st = (obj2, st2x, .ok rid) →
      rid = st.nextId ∧ st2x.nextId = st.nextId + 1) :=
  monotonic_ids regW
    ⟨some ⟨some [COMBAT_OUTCOME_HASH, 1, 2], some [1, 9, 0, 11, 12, 13]⟩⟩
    ⟨some ⟨some [COMBAT_OUTCOME_HASH, 1, 2], some [1, 9, 0, 11, 12, 13]⟩⟩
    ⟨some ⟨some [COMBAT_OUTCOME_HASH, 1, 2], some [1, 9, 0, 11, 12, 13]⟩⟩
    ⟨[⟨1, .int COMBAT_OUTCOME_TYPE, 4, .int 13,
        [("attacking_entity_ids", PyVal.ids []), ("stolen_resources", PyVal.res []),
         ("winner", PyVal.int 11), ("damage", PyVal.int 12)], (3, 4), (5, 6)⟩], 2⟩
    ⟨[⟨1, .int COMBAT_OUTCOME_TYPE, 4, .int 13,
        [("attacking_entity_ids", PyVal.ids []), ("stolen_resources", PyVal.res []),
         ("winner", PyVal.int 11), ("damage", PyVal.int 12)], (3, 4), (5, 6)⟩,
      ⟨2, .int COMBAT_OUTCOME_TYPE, 4, .int 13,
        [("attacking_entity_ids", PyVal.ids []), ("stolen_resources", PyVal.res []),
         ("winner", PyVal.int 11), ("damage", PyVal.int 12)], (3, 4), (5, 6)⟩], 3⟩
    ⟨[⟨1, .int COMBAT_OUTCOME_TYPE, 4, .int 13,
        [("attacking_entity_ids", PyVal.ids []), ("stolen_resources", PyVal.res []),
         ("winner", PyVal.int 11), ("damage", PyVal.int 12)], (3, 4), (5, 6)⟩,
      ⟨2, .int COMBAT_OUTCOME_TYPE, 4, .int 13,
        [("attacking_entity_ids", PyVal.ids []), ("stolen_resources", PyVal.res []),
         ("winner", PyVal.int 11), ("damage", PyVal.int 12)], (3, 4), (5, 6)⟩,
      ⟨3, .int COMBAT_OUTCOME_TYPE, 4, .int 13,
        [("attacking_entity_ids", PyVal.ids []), ("stolen_resources", PyVal.res []),
         ("winner", PyVal.int 11), ("damage", PyVal.int 12)], (3, 4), (5, 6)⟩], 4⟩
    1 2 3 rfl rfl rfl

/-- C8: an envelope whose `eventEmitted` wrapper, `keys`, or `data` is
missing or empty makes `process_event` fail before any decode or insert
(the spec's `MalformedEnvelope`, realized as `RuntimeError` with a
case-specific message), and the store state is returned unchanged. -/
theorem malformed_envelope (reg : Registry) (st : DbState) :
    (∀ ev : ToriiEvent, ev.eventEmitted = none →
      process_event reg ev st
        = (st, .error (.runtimeError "eventEmitted no present in event"))) ∧
    (∀ (ev : ToriiEvent) (ee : EventEmitted), ev.eventEmitted = some ee →
      (ee.keys = none ∨ ee.keys = some []) →
      process_event reg ev st = (st, .error (.runtimeError "Event had no keys"))) ∧
    (∀ (ev : ToriiEvent) (ee : EventEmitted) (ks : List Nat),
      ev.eventEmitted = some ee → ee.keys = some ks → ks ≠ [] →
      (ee.data = none ∨ ee.data = some []) →
      process_event reg ev st = (st, .error (.runtimeError "Event had no data"))) := by
  refine ⟨?_, ?_, ?_⟩
  · intro ev hev
    obtain ⟨oee⟩ := ev
    cases hev
    rfl
  · intro ev ee hev hk
    obtain ⟨oee⟩ := ev
    cases hev
    obtain ⟨ks, ds⟩ := ee
    rcases hk with hk | hk <;> cases hk <;> rfl
  · intro ev ee ks hev hks hne hd
    obtain ⟨oee⟩ := ev
    cases hev
    obtain ⟨ks', ds⟩ := ee
    cases hks
    cases ks with
    | nil => exact absurd rfl hne
    | cons k0 kr => rcases hd with hd | hd <;> cases hd <;> rfl

theorem malformed_envelope_witness :
    process_event regW ⟨none⟩ DbState.empty
      = (DbState.empty, .error (.runtimeError "eventEmitted no present in event")) :=
  (malformed_envelope regW DbState.empty).1 ⟨none⟩ rfl

/-- C9 counterexample: a timed-out lock acquisition does not make the
operation fail — `__lock` discards the acquire result, so the statement is
executed against the connection anyway (there is no `LockTimeout` failure
in any trace). -/
theorem lock_timeout_ignored :
    insertTrace true = [.acquire true, .execute, .commit, .release] ∧
    DbAction.execute ∈ insertTrace true ∧
    DbAction.execute ∈ getByIdTrace true ∧
    DbAction.execute ∈ getAllTrace true :=
  ⟨rfl, by decide, by decide, by decide⟩

/-- C9 amended: every connection-touching operation (`__insert` as used by
`add`, `get_by_id`, `get_all`) acquires the single lock first and releases
it last with the statement in between — but whether or not the bounded
wait timed out, the statement still executes and no `LockTimeout` error is
raised. -/
theorem lock_discipline (t : Bool) :
    (insertTrace t).head? = some (.acquire t) ∧
    (insertTrace t).getLast? = some .release ∧
    DbAction.execute ∈ insertTrace t ∧
    (getByIdTrace t).head? = some (.acquire t) ∧
    (getByIdTrace t).getLast? = some .release ∧
    DbAction.execute ∈ getByIdTrace t ∧
    (getAllTrace t).head? = some (.acquire t) ∧
    (getAllTrace t).getLast? = some .release ∧
    DbAction.execute ∈ getAllTrace t := by
  cases t <;>
    exact ⟨rfl, rfl, by decide, rfl, rfl, by decide, rfl, rfl, by decide⟩

theorem lock_discipline_witness :
    (insertTrace true).head? = some (.acquire true) ∧
    (insertTrace true).getLast? = some .release ∧
    DbAction.execute ∈ insertTrace true ∧
    (getByIdTrace true).head? = some (.acquire true) ∧
    (getByIdTrace true).getLast? = some .release ∧
    DbAction.execute ∈ getByIdTrace true ∧
    (getAllTrace true).head? = some (.acquire true) ∧
    (getAllTrace true).getLast? = some .release ∧
    DbAction.execute ∈ getAllTrace true :=
  lock_discipline true

/-- C10: a completed `add` destructively mutates the ParsedEvent dict it
was given — the caller's dict contained "type" before the call and
afterwards no longer contains any of the keys type, active_pos,
passive_pos, ts, importance. -/
theorem add_mutates_input
    (obj : ParsedEvent) (st : DbState) (obj2 : ParsedEvent) (st2 : DbState)
    (rid : Nat) (h : add obj st = (obj2, st2, .ok rid)) :
    pyDictGet obj "type" ≠ none ∧
    pyDictGet obj2 "type" = none ∧ pyDictGet obj2 "active_pos" = none ∧
    pyDictGet obj2 "passive_pos" = none ∧ pyDictGet obj2 "ts" = none ∧
    pyDictGet obj2 "importance" = none := by
  obtain ⟨_, _, _, ho, hty⟩ := add_ok_spec h
  subst ho
  refine ⟨hty, ?_, ?_, ?_, ?_, ?_⟩
  · exact pyDictGet_del_none _ _ _ (pyDictGet_del_none _ _ _ (pyDictGet_del_none _ _ _
      (pyDictGet_del_none _ _ _ (pyDictGet_del_self obj "type"))))
  · exact pyDictGet_del_none _ _ _ (pyDictGet_del_none _ _ _ (pyDictGet_del_none _ _ _
      (pyDictGet_del_self (pyDictDel obj "type") "active_pos")))
  · exact pyDictGet_del_none _ _ _ (pyDictGet_del_none _ _ _
      (pyDictGet_del_self (pyDictDel (pyDictDel obj "type") "active_pos") "passive_pos"))
  · exact pyDictGet_del_none _ _ _
      (pyDictGet_del_self (pyDictDel (pyDictDel (pyDictDel obj "type") "active_pos")
        "passive_pos") "ts")
  · exact pyDictGet_del_self _ "importance"

theorem add_mutates_input_witness :
    pyDictGet [("type", PyVal.int COMBAT_OUTCOME_TYPE), ("active_pos", PyVal.pos 3 4),
      ("passive_pos", PyVal.pos 5 6), ("attacking_entity_ids", PyVal.ids []),
      ("stolen_resources", PyVal.res []), ("winner", PyVal.int 11),
      ("damage", PyVal.int 12), ("importance", PyVal.int 0),
      ("ts", PyVal.int 13)] "type" ≠ none ∧
    pyDictGet [("attacking_entity_ids", PyVal.ids []), ("stolen_resources", PyVal.res []),
      ("winner", PyVal.int 11), ("damage", PyVal.int 12)] "type" = none ∧
    pyDictGet [("attacking_entity_ids", PyVal.ids []), ("stolen_resources", PyVal.res []),
      ("winner", PyVal.int 11), ("damage", PyVal.int 12)] "active_pos" = none ∧
    pyDictGet [("attacking_entity_ids", PyVal.ids []), ("stolen_resources", PyVal.res []),
      ("winner", PyVal.int 11), ("damage", PyVal.int 12)] "passive_pos" = none ∧
    pyDictGet [("attacking_entity_ids", PyVal.ids []), ("stolen_resources", PyVal.res []),
      ("winner", PyVal.int 11), ("damage", PyVal.int 12)] "ts" = none ∧
    pyDictGet [("attacking_entity_ids", PyVal.ids []), ("stolen_resources", PyVal.res []),
      ("winner", PyVal.int 11), ("damage", PyVal.int 12)] "importance" = none :=
  add_mutates_input
    [("type", .int COMBAT_OUTCOME_TYPE), ("active_pos", .pos 3 4),
     ("passive_pos", .pos 5 6), ("attacking_entity_ids", .ids []),
     ("stolen_resources", .res []), ("winner", .int 11), ("damage", .int 12),
     ("importance", .int 0), ("ts", .int 13)]
    DbState.empty
    [("attacking_entity_ids", .ids []), ("stolen_resources", .res []),
     ("winner", .int 11), ("damage", .int 12)]
    ⟨[⟨1, .int COMBAT_OUTCOME_TYPE, 4, .int 13,
        [("attacking_entity_ids", PyVal.ids []), ("stolen_resources", PyVal.res []),
         ("winner", PyVal.int 11), ("damage", PyVal.int 12)], (3, 4), (5, 6)⟩], 2⟩
    1 rfl

end Overlore
